import Mathlib

/-!
Formal model of the mini compiler pipeline in `src/main.py`: a regex-style
tokenizer for one line of source text, a recursive-descent parser producing an
AST, a tree-walking interpreter over a mutable environment, and a C code
generator.  Every definition is a direct translation of the corresponding
Python code; comments cite the Python construct being modelled.

Character classes: the Python regexes use `\d` and `\s`, which under
`re.UNICODE` also match some non-ASCII characters; the inputs of interest are
ASCII, and this model uses the ASCII classes.
-/

namespace Py2C

/-- Token kinds: the named regex groups of `tokenise_python_code`
(`STRING`, `FLOAT`, `INTEGER`, `IDENT`, `OP`, `SKIP`, `MISMATCH`) plus the
post-hoc `KEYWORD` reclassification. -/
inductive TKind where
  | STRING | FLOAT | INTEGER | IDENT | OP | SKIP | MISMATCH | KEYWORD
  deriving DecidableEq, Repr

abbrev Tok := String × TKind

/-- Source `OPERATORS = sorted([...], key = lambda x: -len(x))`: Python's stable sort
by descending length applied to the source list
`['**=', '//=', '==', '!=', '<=', '>=', '**', '//', '+=', '-=', '*=', '/=',
'%=', '=', '<', '>', '+', '-', '*', '/', '%', 'and', 'or', 'not', 'is', 'in']`. -/
def OPERATORS : List String :=
  ["**=", "//=", "and", "not",
   "==", "!=", "<=", ">=", "**", "//", "+=", "-=", "*=", "/=", "%=", "or", "is", "in",
   "=", "<", ">", "+", "-", "*", "/", "%"]

/-- Source `KEYWORDS = set(keyword.kwlist)`: Python 3's keyword list. -/
def KEYWORDS : List String :=
  ["False", "None", "True", "and", "as", "assert", "async", "await", "break",
   "class", "continue", "def", "del", "elif", "else", "except", "finally",
   "for", "from", "global", "if", "import", "in", "is", "lambda", "nonlocal",
   "not", "or", "pass", "raise", "return", "try", "while", "with", "yield"]

/-- The apostrophe character (one of the two string delimiters). -/
def squote : Char := Char.ofNat 39

/-- Python `\s` restricted to ASCII: space, tab, newline, CR, VT, FF. -/
def isPySpace (c : Char) : Bool :=
  c = ' ' ∨ c = '\t' ∨ c = '\n' ∨ c = '\r' ∨ c = '\x0b' ∨ c = '\x0c'

/-- Pattern `[A-Za-z_]`, the start of the IDENT pattern. -/
def isIdentStart (c : Char) : Bool := c.isAlpha ∨ c = '_'

/-- Pattern `[A-Za-z0-9_]`, the continuation of the IDENT pattern. -/
def isIdentChar (c : Char) : Bool := c.isAlphanum ∨ c = '_'

/-- Source `re.sub(r'#.*', '', line)`: each `#` and everything after it up to (not
including) the next newline is removed; fuel-driven because the comment body
is dropped in one step.  `stripComments` supplies fuel `s.length`, which
suffices since every step consumes at least one character. -/
def stripCommentsAux : Nat → List Char → List Char
  | 0, _ => []
  | _, [] => []
  | Nat.succ n, c :: rest =>
    if c = '#' then stripCommentsAux n (rest.dropWhile (fun x => x ≠ '\n'))
    else c :: stripCommentsAux n rest

def stripComments (s : List Char) : List Char := stripCommentsAux s.length s

/-- The body of `".*?"` / `'.*?'`: the shortest run of non-newline characters
up to the closing quote `q`.  Returns the matched characters (closing quote
included) and the rest; `none` when no closing quote occurs before a newline
or the end of the line (the STRING alternative then fails to match). -/
def scanString (q : Char) : List Char → Option (List Char × List Char)
  | [] => none
  | c :: cs =>
    if c = q then some ([c], cs)
    else if c = '\n' then none
    else match scanString q cs with
      | some (m, r) => some (c :: m, r)
      | none => none

/-- The STRING pattern `(".*?"|'.*?')`. -/
def matchString : List Char → Option (List Char × List Char)
  | [] => none
  | c :: cs =>
    if c = '"' ∨ c = squote then
      match scanString c cs with
      | some (m, r) => some (c :: m, r)
      | none => none
    else none

/-- The optional leading sign `[+-]?` shared by the FLOAT and INTEGER
patterns.  (Backtracking on the sign never helps: the rest of either pattern
cannot start with `+` or `-`.) -/
def optSign : List Char → List Char × List Char
  | [] => ([], [])
  | c :: cs => if c = '+' ∨ c = '-' then ([c], cs) else ([], c :: cs)

/-- The FLOAT body `(\d+\.\d*|\.\d+)`, alternatives tried left to right. -/
def floatBody (l : List Char) : Option (List Char × List Char) :=
  let d1 := l.takeWhile Char.isDigit
  if d1 ≠ [] then
    match l.dropWhile Char.isDigit with
    | c :: r2 =>
      if c = '.' then some (d1 ++ c :: r2.takeWhile Char.isDigit, r2.dropWhile Char.isDigit)
      else none
    | [] => none
  else
    match l with
    | c :: r2 =>
      if c = '.' ∧ r2.takeWhile Char.isDigit ≠ [] then
        some (c :: r2.takeWhile Char.isDigit, r2.dropWhile Char.isDigit)
      else none
    | [] => none

/-- The FLOAT pattern `[+-]?(\d+\.\d*|\.\d+)`. -/
def matchFloat (l : List Char) : Option (List Char × List Char) :=
  let (sign, l1) := optSign l
  match floatBody l1 with
  | some (m, r) => some (sign ++ m, r)
  | none => none

/-- The INTEGER pattern `[+-]?\d+`. -/
def matchInteger (l : List Char) : Option (List Char × List Char) :=
  let (sign, l1) := optSign l
  let d := l1.takeWhile Char.isDigit
  if d ≠ [] then some (sign ++ d, l1.dropWhile Char.isDigit) else none

/-- The IDENT pattern `[A-Za-z_][A-Za-z0-9_]*`. -/
def matchIdent : List Char → Option (List Char × List Char)
  | [] => none
  | c :: cs =>
    if isIdentStart c then
      some (c :: cs.takeWhile isIdentChar, cs.dropWhile isIdentChar)
    else none

/-- A regex alternation of literals tried left to right: the first list entry
that is a textual prefix of the input matches. -/
def firstPrefixMatch : List String → List Char → Option String
  | [], _ => none
  | op :: rest, l => if op.data.isPrefixOf l then some op else firstPrefixMatch rest l

/-- The OP pattern `'|'.join(map(re.escape, OPERATORS))`. -/
def matchOp (l : List Char) : Option (List Char × List Char) :=
  match firstPrefixMatch OPERATORS l with
  | some op => some (op.data, l.drop op.data.length)
  | none => none

/-- The SKIP pattern `\s+`. -/
def matchSkip (l : List Char) : Option (List Char × List Char) :=
  let d := l.takeWhile isPySpace
  if d ≠ [] then some (d, l.dropWhile isPySpace) else none

/-- One step of `re.finditer` over the combined pattern: the named groups are
tried in the `token_spec` order (STRING, FLOAT, INTEGER, IDENT, OP, SKIP), and
the catch-all MISMATCH group `.` consumes a single character. -/
def nextTok (c : Char) (cs : List Char) : Tok × List Char :=
  let l := c :: cs
  match matchString l with
  | some (m, r) => ((String.mk m, TKind.STRING), r)
  | none =>
  match matchFloat l with
  | some (m, r) => ((String.mk m, TKind.FLOAT), r)
  | none =>
  match matchInteger l with
  | some (m, r) => ((String.mk m, TKind.INTEGER), r)
  | none =>
  match matchIdent l with
  | some (m, r) => ((String.mk m, TKind.IDENT), r)
  | none =>
  match matchOp l with
  | some (m, r) => ((String.mk m, TKind.OP), r)
  | none =>
  match matchSkip l with
  | some (m, r) => ((String.mk m, TKind.SKIP), r)
  | none => ((String.mk [c], TKind.MISMATCH), cs)

/-- The token loop of `tokenise_python_code`: SKIP matches are dropped
(`if(kind == 'SKIP'): continue`), IDENT lexemes are reclassified as KEYWORD or
OP.  Fuel-driven; `tokenise_python_code` supplies the line length, which
suffices because `nextTok` always consumes at least one character. -/
def tokeniseAux : Nat → List Char → List Tok
  | 0, _ => []
  | _, [] => []
  | Nat.succ n, c :: cs =>
    let r := nextTok c cs
    let val := r.1.1
    let kind := r.1.2
    if kind = TKind.SKIP then tokeniseAux n r.2
    else
      let kind2 :=
        if kind = TKind.IDENT then
          if val ∈ KEYWORDS then TKind.KEYWORD
          else if val ∈ OPERATORS then TKind.OP
          else TKind.IDENT
        else kind
      (val, kind2) :: tokeniseAux n r.2

/-- Source `tokenise_python_code(line)`: strip comments, then scan. -/
def tokenise_python_code (line : String) : List Tok :=
  let chars := stripComments line.data
  tokeniseAux chars.length chars

/-! ## AST nodes

The Python classes `Number`, `String`, `Var`, `BinOp`, `Assign`, `Print`,
`If`.  `Number.__init__` applies `int(v)` to the lexeme and `String.__init__`
strips the delimiting quotes (`v[1:-1]`); those conversions are performed at
the construction sites in the parser below, so the `Number` and `String`
constructors here hold the converted values. -/

inductive Node where
  | Number (value : Int)
  | String (value : String)
  | Var (name : String)
  | BinOp (left : Node) (op : String) (right : Node)
  | Assign (name : String) (expr : Node)
  | Print (expr : Node)
  | If (cond : Node) (body : Node)
  deriving DecidableEq, Repr

/-- Python `int(s)` on a lexeme of the INTEGER pattern `[+-]?\d+`. -/
def digitsToNat (ds : List Char) : Nat :=
  ds.foldl (fun a c => 10 * a + (c.toNat - ('0').toNat)) 0

def pyInt (s : String) : Int :=
  match s.data with
  | '+' :: ds => (digitsToNat ds : Int)
  | '-' :: ds => -(digitsToNat ds : Int)
  | ds => (digitsToNat ds : Int)

/-- Python `v[1:-1]`: drop the first and last character (the quotes of a
STRING lexeme). -/
def stripQuotes (s : String) : String := String.mk (s.data.drop 1).dropLast

/-! ## Recursive-descent parser

The Python `Parser` keeps the token list and a position `pos` that only ever
advances; `peek` yields `(None, None)` past the end.  The functions below
take the token list and the position and return the parsed node with the new
position, or the `SyntaxError` message.  Each function additionally takes a
fuel parameter, decremented at every nested call, which makes the mutual
recursion structural; `Parser.parse` supplies `(toks.length + 1) * 8` fuel,
enough because every grammar rule consumes at least one token before
recursing and the rule chain between two consumptions has length at most 8.
Running out of fuel yields the error message `"fuel"`, which never occurs on
the inputs considered in the theorems below. -/

namespace Parser

/-- Source `self.peek()[0]`: the lexeme of the current token, if any. -/
def peekLex (toks : List Tok) (p : Nat) : Option String :=
  match toks[p]? with
  | some t => some t.1
  | none => none

/-- How Python prints the lexeme in error messages (`None` past the end). -/
def showLex : Option String → String
  | some s => s
  | none => "None"

/-- Source `Parser.expect(val)`: consume the current token if its lexeme is `val`,
else raise `SyntaxError(f"Expected {val}, got {t}")`. -/
def expect (toks : List Tok) (v : String) (p : Nat) : Except String Nat :=
  if peekLex toks p = some v then Except.ok (p + 1)
  else Except.error ("Expected " ++ v ++ ", got " ++ showLex (peekLex toks p))

/-- The grammar rule being run: one tag per parsing method of the Python
`Parser`, plus one per `while` loop inside `expr` and `term` (the loop tags
carry the left operand accumulated so far).  The six mutually recursive
methods are modelled as a single function by dispatch on this tag, so that
the recursion is structural on the fuel. -/
inductive Rule where
  | stmtR
  | exprR
  | exprLoopR (acc : Node)
  | termR
  | termLoopR (acc : Node)
  | factorR

/-- The body of the mutual recursion `statement`/`expr`/`term`/`factor`
(with the two `while` loops as the `LoopR` rules); see the wrappers below
for the rule-by-rule correspondence with the Python methods. -/
def runRule : Nat → Rule → List Tok → Nat → Except String (Node × Nat)
  | 0, _, _, _ => Except.error "fuel"
  | Nat.succ n, Rule.stmtR, toks, p =>
    -- `Parser.statement`: print statement, assignment, or single-line `if`.
    (match toks[p]? with
    | none => Except.error "Unexpected None"
    | some (t, typ) =>
      if t = "print" then
        match expect toks "(" (p + 1) with
        | Except.error e => Except.error e
        | Except.ok p2 =>
          match runRule n Rule.exprR toks p2 with
          | Except.error e => Except.error e
          | Except.ok (e1, p3) =>
            match expect toks ")" p3 with
            | Except.error e => Except.error e
            | Except.ok p4 => Except.ok (Node.Print e1, p4)
      else if typ = TKind.IDENT then
        match expect toks "=" (p + 1) with
        | Except.error e => Except.error e
        | Except.ok p2 =>
          match runRule n Rule.exprR toks p2 with
          | Except.error e => Except.error e
          | Except.ok (e1, p3) => Except.ok (Node.Assign t e1, p3)
      else if t = "if" then
        match runRule n Rule.exprR toks (p + 1) with
        | Except.error e => Except.error e
        | Except.ok (c, p2) =>
          match expect toks ":" p2 with
          | Except.error e => Except.error e
          | Except.ok p3 =>
            match runRule n Rule.stmtR toks p3 with
            | Except.error e => Except.error e
            | Except.ok (b, p4) => Except.ok (Node.If c b, p4)
      else Except.error ("Unexpected " ++ t))
  | Nat.succ n, Rule.exprR, toks, p =>
    -- `Parser.expr`: a term followed by a left-associative `+`/`-` chain.
    (match runRule n Rule.termR toks p with
    | Except.error e => Except.error e
    | Except.ok (node, p1) => runRule n (Rule.exprLoopR node) toks p1)
  | Nat.succ n, Rule.exprLoopR node, toks, p =>
    -- the `while(self.peek()[0] in ('+', '-'))` loop of `Parser.expr`.
    (match peekLex toks p with
    | some op =>
      if op = "+" ∨ op = "-" then
        match runRule n Rule.termR toks (p + 1) with
        | Except.error e => Except.error e
        | Except.ok (right, p2) => runRule n (Rule.exprLoopR (Node.BinOp node op right)) toks p2
      else Except.ok (node, p)
    | none => Except.ok (node, p))
  | Nat.succ n, Rule.termR, toks, p =>
    -- `Parser.term`: a factor followed by a left-associative `*`/`/`/`%` chain.
    (match runRule n Rule.factorR toks p with
    | Except.error e => Except.error e
    | Except.ok (node, p1) => runRule n (Rule.termLoopR node) toks p1)
  | Nat.succ n, Rule.termLoopR node, toks, p =>
    -- the `while(self.peek()[0] in ('*', '/', '%'))` loop of `Parser.term`.
    (match peekLex toks p with
    | some op =>
      if op = "*" ∨ op = "/" ∨ op = "%" then
        match runRule n Rule.factorR toks (p + 1) with
        | Except.error e => Except.error e
        | Except.ok (right, p2) => runRule n (Rule.termLoopR (Node.BinOp node op right)) toks p2
      else Except.ok (node, p)
    | none => Except.ok (node, p))
  | Nat.succ n, Rule.factorR, toks, p =>
    -- `Parser.factor`: integer, string, variable, or parenthesised expression.
    (match toks[p]? with
    | none => Except.error "Unexpected factor None"
    | some (t, typ) =>
      if typ = TKind.INTEGER then Except.ok (Node.Number (pyInt t), p + 1)
      else if typ = TKind.STRING then Except.ok (Node.String (stripQuotes t), p + 1)
      else if typ = TKind.IDENT then Except.ok (Node.Var t, p + 1)
      else if t = "(" then
        match runRule n Rule.exprR toks (p + 1) with
        | Except.error e => Except.error e
        | Except.ok (node, p2) =>
          match expect toks ")" p2 with
          | Except.error e => Except.error e
          | Except.ok p3 => Except.ok (node, p3)
      else Except.error ("Unexpected factor " ++ t))

/-- Source `Parser.statement`. -/
def statement (n : Nat) (toks : List Tok) (p : Nat) : Except String (Node × Nat) :=
  runRule n Rule.stmtR toks p

/-- Source `Parser.expr`. -/
def expr (n : Nat) (toks : List Tok) (p : Nat) : Except String (Node × Nat) :=
  runRule n Rule.exprR toks p

/-- Source `Parser.term`. -/
def term (n : Nat) (toks : List Tok) (p : Nat) : Except String (Node × Nat) :=
  runRule n Rule.termR toks p

/-- Source `Parser.factor`. -/
def factor (n : Nat) (toks : List Tok) (p : Nat) : Except String (Node × Nat) :=
  runRule n Rule.factorR toks p

/-- Source `Parser.parse`: `while(self.pos < len(self.toks)): statements.append(self.statement())`.
A `SyntaxError` raised by any statement propagates (the loop is not guarded). -/
def parseAux : Nat → List Tok → Nat → Except String (List Node)
  | 0, _, _ => Except.error "fuel"
  | Nat.succ n, toks, p =>
    if p < toks.length then
      match statement n toks p with
      | Except.error e => Except.error e
      | Except.ok (s, p1) =>
        match parseAux n toks p1 with
        | Except.error e => Except.error e
        | Except.ok rest => Except.ok (s :: rest)
    else Except.ok []

def parse (toks : List Tok) : Except String (List Node) :=
  parseAux ((toks.length + 1) * 8) toks 0

end Parser

/-! ## Interpreter

Values are Python ints, strs, or `None` (`self.env.get(name)` yields `None`
for an unbound name, and statement nodes evaluate to `None`).  The
environment is Python's insertion-ordered dict, modelled as an association
list with in-place update.  `print` output is collected in a list of lines.
Failures (`TypeError`, `ZeroDivisionError`) are modelled as `Except.error`
with a message resembling Python's. -/

inductive Value where
  | int (n : Int)
  | str (s : String)
  | none
  deriving DecidableEq, Repr

def Value.typeName : Value → String
  | Value.int _ => "int"
  | Value.str _ => "str"
  | Value.none => "NoneType"

abbrev Env := List (String × Value)

/-- Source `self.env.get(node.name)`: `None` when the name is unbound. -/
def envGet : Env → String → Value
  | [], _ => Value.none
  | (k, v) :: rest, n => if k = n then v else envGet rest n

/-- Source `self.env[name] = v`: overwrite the existing binding or append a new one. -/
def envSet : Env → String → Value → Env
  | [], n, v => [(n, v)]
  | (k, w) :: rest, n, v =>
    if k = n then (k, v) :: rest else (k, w) :: envSet rest n v

/-- Python `str * int` (`int * str`): repetition, empty for a non-positive
count. -/
def strRepeat (s : String) : Nat → String
  | 0 => ""
  | Nat.succ n => s ++ strRepeat s n

/-- Python `bool(v)`: `0`, `""` and `None` are falsy. -/
def truthy : Value → Bool
  | Value.int n => n ≠ 0
  | Value.str s => s ≠ ""
  | Value.none => false

/-- Python `print(v)` for the values arising here. -/
def valueStr : Value → String
  | Value.int n => toString n
  | Value.str s => s
  | Value.none => "None"

/-- The operator dispatch inside `Interpreter.eval` for a `BinOp` node, i.e.
Python `l + r`, `l - r`, `l * r`, `l // r`, `l % r` on the values of this
model.  `+` concatenates two strs, `*` repeats a str by an int; combinations
Python's operators reject are `TypeError`s (message without CPython's quotes
around the type names).  `%` with a str left operand is a `TypeError` for
every str that contains no conversion specifier — the only strs that reach it
here — so it is modelled as an error; CPython's `%`-formatting of format
strings is outside this model.  An operator other than the five listed falls
through every branch of `Interpreter.eval`, which then returns `None`. -/
def evalBin (op : String) (l r : Value) : Except String Value :=
  if op = "+" then
    match l, r with
    | Value.int a, Value.int b => Except.ok (Value.int (a + b))
    | Value.str a, Value.str b => Except.ok (Value.str (a ++ b))
    | _, _ => Except.error ("unsupported operand type(s) for +: " ++ l.typeName ++ " and " ++ r.typeName)
  else if op = "-" then
    match l, r with
    | Value.int a, Value.int b => Except.ok (Value.int (a - b))
    | _, _ => Except.error ("unsupported operand type(s) for -: " ++ l.typeName ++ " and " ++ r.typeName)
  else if op = "*" then
    match l, r with
    | Value.int a, Value.int b => Except.ok (Value.int (a * b))
    | Value.str s, Value.int b => Except.ok (Value.str (strRepeat s b.toNat))
    | Value.int a, Value.str s => Except.ok (Value.str (strRepeat s a.toNat))
    | _, _ => Except.error ("unsupported operand type(s) for *: " ++ l.typeName ++ " and " ++ r.typeName)
  else if op = "/" then
    match l, r with
    | Value.int a, Value.int b =>
      if b = 0 then Except.error "integer division or modulo by zero"
      else Except.ok (Value.int (Int.fdiv a b))
    | _, _ => Except.error ("unsupported operand type(s) for //: " ++ l.typeName ++ " and " ++ r.typeName)
  else if op = "%" then
    match l, r with
    | Value.int a, Value.int b =>
      if b = 0 then Except.error "integer division or modulo by zero"
      else Except.ok (Value.int (Int.fmod a b))
    | _, _ => Except.error ("unsupported operand type(s) for %: " ++ l.typeName ++ " and " ++ r.typeName)
  else Except.ok Value.none

/-- Source `Interpreter.eval`, with the environment and the list of printed lines
threaded explicitly.  Mirrors the Python dispatch: literals and variables
return a value; `BinOp` evaluates left then right then applies the operator;
`Assign` binds; `Print` appends a printed line; `If` evaluates the body only
when the condition is truthy.  Statement nodes fall off the end of the Python
function and return `None`. -/
def eval : Node → Env → List String → Except String (Value × Env × List String)
  | Node.Number v, env, out => Except.ok (Value.int v, env, out)
  | Node.String s, env, out => Except.ok (Value.str s, env, out)
  | Node.Var n, env, out => Except.ok (envGet env n, env, out)
  | Node.BinOp l op r, env, out =>
    match eval l env out with
    | Except.error e => Except.error e
    | Except.ok (lv, env1, out1) =>
      match eval r env1 out1 with
      | Except.error e => Except.error e
      | Except.ok (rv, env2, out2) =>
        match evalBin op lv rv with
        | Except.error e => Except.error e
        | Except.ok v => Except.ok (v, env2, out2)
  | Node.Assign n e, env, out =>
    match eval e env out with
    | Except.error er => Except.error er
    | Except.ok (v, env1, out1) => Except.ok (Value.none, envSet env1 n v, out1)
  | Node.Print e, env, out =>
    match eval e env out with
    | Except.error er => Except.error er
    | Except.ok (v, env1, out1) => Except.ok (Value.none, env1, out1 ++ [valueStr v])
  | Node.If c b, env, out =>
    match eval c env out with
    | Except.error e => Except.error e
    | Except.ok (cv, env1, out1) =>
      if truthy cv then
        match eval b env1 out1 with
        | Except.error e => Except.error e
        | Except.ok (_, env2, out2) => Except.ok (Value.none, env2, out2)
      else Except.ok (Value.none, env1, out1)

/-- Source `Interpreter.__init__`: `self.env = {}`. -/
def Interpreter.initEnv : Env := []

/-- Statements of a program are evaluated strictly in order on one
interpreter instance. -/
def runStmts : List Node → Env → List String → Except String (Env × List String)
  | [], env, out => Except.ok (env, out)
  | s :: rest, env, out =>
    match eval s env out with
    | Except.error e => Except.error e
    | Except.ok (_, env1, out1) => runStmts rest env1 out1

/-- Tokenise each line, concatenate the tokens (as `run_py2c` does with
`toks.extend`), parse, and interpret from the empty environment, yielding the
printed lines. -/
def interpret (source : List String) : Except String (List String) :=
  match Parser.parse ((source.map tokenise_python_code).flatten) with
  | Except.error e => Except.error e
  | Except.ok stmts =>
    match runStmts stmts Interpreter.initEnv [] with
    | Except.error e => Except.error e
    | Except.ok (_, out) => Except.ok out

/-! ## C code generator -/

namespace CGen

/-- Source `CGen.e`: recursive expression translation.  Any node other than
`Number`, `Var`, `BinOp` — in particular every `String` literal — falls
through to `return '0'`. -/
def e : Node → String
  | Node.Number v => toString v
  | Node.Var n => n
  | Node.BinOp l op r => "(" ++ e l ++ " " ++ op ++ " " ++ e r ++ ")"
  | _ => "0"

/-- Source `CGen.emit`: the lines appended to `self.lines` for one statement node.
Nodes other than `Assign`, `Print`, `If` append nothing. -/
def emit : Node → List String
  | Node.Assign n ex => ["    int " ++ n ++ " = " ++ e ex ++ ";"]
  | Node.Print ex => ["    printf(\"%d\\n\", " ++ e ex ++ ");"]
  | Node.If c b => ("    if (" ++ e c ++ ") \x7b") :: emit b ++ ["    \x7d"]
  | _ => []

/-- The full line list built by `CGen.gen` before joining. -/
def genLines (stmts : List Node) : List String :=
  ["#include <stdio.h>", "", "int main() \x7b"]
    ++ (stmts.map emit).flatten
    ++ ["    return 0;", "\x7d"]

/-- Source `CGen.gen`: `'\n'.join(self.lines)`. -/
def gen (stmts : List Node) : String := String.intercalate "\n" (genLines stmts)

end CGen

/-- Source `run_py2c` up to C generation: each line is tokenised inside
`try/except` — but `tokenise_python_code` is a total function, so the
`except` arm never runs and `errs` stays empty — then the concatenated token
list is parsed in one call (not guarded by any `try`) and the AST is handed
to `CGen.gen`.  Writing `output.c` and invoking gcc are external effects
outside this model. -/
def run_py2c (source : List String) : Except String String :=
  match Parser.parse ((source.map tokenise_python_code).flatten) with
  | Except.error e => Except.error e
  | Except.ok stmts => Except.ok (CGen.gen stmts)

/-! ## Supporting notions used by the theorems -/

/-- Equality of `Except` results is decidable, so that concrete pipeline runs
can be checked by `decide`. -/
instance {ε α : Type} [DecidableEq ε] [DecidableEq α] : DecidableEq (Except ε α) := fun x y =>
  match x, y with
  | Except.ok v, Except.ok w =>
    if h : v = w then isTrue (by rw [h]) else isFalse (fun he => by cases he; exact h rfl)
  | Except.ok _, Except.error _ => isFalse (fun he => by cases he)
  | Except.error _, Except.ok _ => isFalse (fun he => by cases he)
  | Except.error v, Except.error w =>
    if h : v = w then isTrue (by rw [h]) else isFalse (fun he => by cases he; exact h rfl)

/-- A node whose subtree contains no `Assign` node. -/
def noAssign : Node → Bool
  | Node.Number _ => true
  | Node.String _ => true
  | Node.Var _ => true
  | Node.BinOp l _ r => noAssign l && noAssign r
  | Node.Assign _ _ => false
  | Node.Print e => noAssign e
  | Node.If c b => noAssign c && noAssign b

/-- The leading text of the C line `CGen.emit` produces for `Assign name _`:
`"    int " ++ name ++ " = "`. -/
def declPrefix (n : String) : List Char :=
  ' ' :: ' ' :: ' ' :: ' ' :: 'i' :: 'n' :: 't' :: ' ' :: (n.data ++ (' ' :: '=' :: ' ' :: []))

/-- Whether a generated C line is an `int`-declaration-with-initializer of
the variable `n`. -/
def isDeclLine (n : String) (line : String) : Bool := (declPrefix n).isPrefixOf line.data

/-- How many lines of a generated C program declare the variable `n`. -/
def declCount (n : String) (lines : List String) : Nat :=
  (lines.filter (fun line => isDeclLine n line)).length

/-- How many `Assign` statements to the name `n` a statement contains
(descending into `If` bodies, exactly where `CGen.emit` recurses). -/
def assignCount (n : String) : Node → Nat
  | Node.Assign m _ => if m = n then 1 else 0
  | Node.If _ b => assignCount n b
  | _ => 0

/-- Total `Assign`-to-`n` count of a statement list. -/
def assignCountList (n : String) (stmts : List Node) : Nat :=
  (stmts.map (assignCount n)).sum

/-- All names assigned anywhere in a statement (descending into `If` bodies). -/
def assignedNames : Node → List String
  | Node.Assign m _ => [m]
  | Node.If _ b => assignedNames b
  | _ => []

/-! ## Theorems about the claims -/

/-- C1: the spec says a `SyntaxError` on one line aborts only that line's
statement construction, the driver reports the line number and message, and
subsequent well-formed lines are still parsed; the code does not do this.
`run_py2c` wraps only the (total) tokenizer in `try/except`, so the
`SyntaxError` raised by `Parser.parse` while parsing the tokens of the line
`"x +"` propagates out of the whole run, and the valid line `"y = 1"`
contributes no statement; the collected `errs` list stays empty and is never
reported.  This theorem evaluates the driver at that failing input. -/
theorem c1_parse_error_aborts_run :
    run_py2c ["x +", "y = 1"] = Except.error "Expected =, got +" := by decide

/-- C10: because the signed-number patterns are tried before the operator
pattern, `"print(1+2)"` lexes `1` and `+2` as two INTEGER tokens with no `+`
OPERATOR token, the parser then rejects the line, while `"print(1 + 2)"`
parses successfully. -/
theorem c10_sign_folding :
    tokenise_python_code "print(1+2)" =
      [("print", TKind.IDENT), ("(", TKind.MISMATCH), ("1", TKind.INTEGER),
       ("+2", TKind.INTEGER), (")", TKind.MISMATCH)]
    ∧ Parser.parse (tokenise_python_code "print(1+2)") = Except.error "Expected ), got +2"
    ∧ Parser.parse (tokenise_python_code "print(1 + 2)") =
        Except.ok [Node.Print (Node.BinOp (Node.Number 1) "+" (Node.Number 2))] := by
  refine ⟨by decide, by decide, by decide⟩

/-- C2 counterexample: the claim says `+` applied to two text values fails
with an "unsupported operation" error; in fact the interpreter silently
concatenates them, as this concrete evaluation shows. -/
theorem c2_counterexample :
    eval (Node.BinOp (Node.String "a") "+" (Node.String "b")) [] [] =
      Except.ok (Value.str "ab", [], []) := by decide

/-- C2 amended: operand-type combinations that the host's operators reject
(for example `%` or `-` between an integer and a text value) do fail with a
type error, but `+` of two text values concatenates them and `*` of a text
value by an integer repeats it — those combinations are silently combined,
not rejected. -/
theorem c2_amended (a b : String) (n : Int) (env : Env) (out : List String) :
    eval (Node.BinOp (Node.String a) "+" (Node.String b)) env out =
      Except.ok (Value.str (a ++ b), env, out)
    ∧ evalBin "%" (Value.int n) (Value.str b) =
        Except.error "unsupported operand type(s) for %: int and str"
    ∧ evalBin "-" (Value.int n) (Value.str b) =
        Except.error "unsupported operand type(s) for -: int and str"
    ∧ evalBin "*" (Value.str a) (Value.int n) = Except.ok (Value.str (strRepeat a n.toNat)) := by
  refine ⟨rfl, rfl, rfl, rfl⟩

/-- C4 counterexample: the claim says the code generator never silently
translates a StringLiteral into the integer literal 0; `CGen.e` does exactly
that. -/
theorem c4_counterexample : CGen.e (Node.String "X") = "0" := rfl

/-- C4 amended: the code generator translates every `String` literal (like
any other unhandled node) into the integer literal `0`, with no rejection and
no unsupported-marker; printing a string literal generates `printf` of `0`. -/
theorem c4_amended (s : String) :
    CGen.e (Node.String s) = "0"
    ∧ CGen.genLines [Node.Print (Node.String s)] =
        ["#include <stdio.h>", "", "int main() \x7b",
         "    printf(\"%d\\n\", 0);", "    return 0;", "\x7d"] := ⟨rfl, rfl⟩

/-- C3 counterexample: the claim says every value other than the zero integer
and the absent value — including the empty string — is truthy; in the code
the empty string is falsy, so an `If` with condition `""` does not evaluate
its body (the assignment leaves the environment empty). -/
theorem c3_counterexample :
    eval (Node.If (Node.String "") (Node.Assign "y" (Node.Number 1))) [] [] =
      Except.ok (Value.none, [], [])
    ∧ envSet [] "y" (Value.int 1) ≠ ([] : Env) := by
  refine ⟨by decide, by decide⟩

/-- C3 amended: evaluating `IfStatement` evaluates the condition, then
evaluates the body if and only if the condition's value is truthy, where a
value is truthy exactly when it is neither the integer zero, nor the absent
value, nor the empty string (host truthiness); on a falsy condition the body
is not evaluated and the state is unchanged. -/
theorem c3_amended (c b : Node) (env : Env) (out : List String) (v : Value)
    (env1 : Env) (out1 : List String) (h : eval c env out = Except.ok (v, env1, out1)) :
    (truthy v = false → eval (Node.If c b) env out = Except.ok (Value.none, env1, out1))
    ∧ (truthy v = true → ∀ w env2 out2, eval b env1 out1 = Except.ok (w, env2, out2) →
        eval (Node.If c b) env out = Except.ok (Value.none, env2, out2))
    ∧ (truthy v = true ↔ (v ≠ Value.int 0 ∧ v ≠ Value.none ∧ v ≠ Value.str "")) := by
  refine ⟨?_, ?_, ?_⟩
  · intro hf
    simp [eval, h, hf]
  · intro ht w env2 out2 hb
    simp [eval, h, ht, hb]
  · cases v with
    | int m => simp [truthy]
    | str s => simp [truthy]
    | none => simp [truthy]

/-- Witness for C3 amended at a concrete truthy condition. -/
theorem c3_amended_witness :
    truthy (Value.int 3) = true
    ∧ eval (Node.If (Node.Number 3) (Node.Print (Node.Number 5))) [] [] =
        Except.ok (Value.none, [], ["5"]) :=
  ⟨by decide,
   (c3_amended (Node.Number 3) (Node.Print (Node.Number 5)) [] [] (Value.int 3) [] [] rfl).2.1
     (by decide) Value.none [] ["5"] rfl⟩

/-- The F-rounding remainder of a negative divisor lies in `(b, 0]`. -/
lemma fmod_neg_bounds (a b : Int) (hb : b < 0) : b < Int.fmod a b ∧ Int.fmod a b ≤ 0 := by
  obtain ⟨n, rfl⟩ : ∃ n : Nat, b = Int.negSucc n := by
    cases b with
    | ofNat k => rw [Int.ofNat_eq_coe] at hb; omega
    | negSucc n => exact ⟨n, rfl⟩
  cases a with
  | ofNat m =>
    cases m with
    | zero =>
      simp only [Int.fmod, Int.negSucc_eq]
      omega
    | succ k =>
      have h1 : Int.fmod (Int.ofNat (Nat.succ k)) (Int.negSucc n) =
          Int.subNatNat (k % Nat.succ n) n := rfl
      rw [h1, Int.subNatNat_eq_coe, Int.negSucc_eq]
      have h2 : k % Nat.succ n < Nat.succ n := Nat.mod_lt k (by omega)
      omega
  | negSucc m =>
    have h1 : Int.fmod (Int.negSucc m) (Int.negSucc n) =
        -Int.ofNat (Nat.succ m % Nat.succ n) := rfl
    rw [h1, Int.negSucc_eq, Int.ofNat_eq_coe]
    have h2 : Nat.succ m % Nat.succ n < Nat.succ n := Nat.mod_lt _ (by omega)
    omega

/-- C8: for integer operands with a nonzero divisor, `/` evaluates to floor
division and `%` to the floor-consistent remainder: `r * (l / r) + (l % r)`
equals `l` and the remainder takes the divisor's sign (nonnegative and below
`r` for positive `r`, nonpositive and above `r` for negative `r`); the
program `["x = 7", "print(x % 2)"]` prints `1`, and `["x = -7", "print(x % 2)"]`
prints the floor-consistent remainder of `-7` by `2`, which is `1`. -/
theorem c8_floor_division (l r : Int) (hr : r ≠ 0) :
    evalBin "/" (Value.int l) (Value.int r) = Except.ok (Value.int (Int.fdiv l r))
    ∧ evalBin "%" (Value.int l) (Value.int r) = Except.ok (Value.int (Int.fmod l r))
    ∧ r * Int.fdiv l r + Int.fmod l r = l
    ∧ (0 < r → 0 ≤ Int.fmod l r ∧ Int.fmod l r < r)
    ∧ (r < 0 → r < Int.fmod l r ∧ Int.fmod l r ≤ 0)
    ∧ interpret ["x = 7", "print(x % 2)"] = Except.ok ["1"]
    ∧ interpret ["x = -7", "print(x % 2)"] = Except.ok ["1"] := by
  refine ⟨?_, ?_, Int.fdiv_add_fmod l r, ?_, fmod_neg_bounds l r, by decide, by decide⟩
  · simp [evalBin, hr]
  · simp [evalBin, hr]
  · intro hpos
    exact ⟨Int.fmod_nonneg' l hpos, Int.fmod_lt_of_pos l hpos⟩

/-- Witness for C8 at concrete operands. -/
theorem c8_floor_division_witness :
    evalBin "/" (Value.int 7) (Value.int 2) = Except.ok (Value.int 3)
    ∧ evalBin "%" (Value.int (-7)) (Value.int 2) = Except.ok (Value.int 1) :=
  ⟨(c8_floor_division 7 2 (by decide)).1,
   (c8_floor_division (-7) 2 (by decide)).2.1⟩

/-- Evaluating a node whose subtree contains no `Assign` leaves the
environment unchanged (the printed output may grow). -/
lemma eval_noAssign_env : ∀ (node : Node) (env : Env) (out : List String) (v : Value)
    (env2 : Env) (out2 : List String), noAssign node = true →
    eval node env out = Except.ok (v, env2, out2) → env2 = env := by
  intro node
  induction node with
  | Number m =>
    intro env out v env2 out2 _ h
    simp [eval] at h
    exact h.2.1.symm
  | String s =>
    intro env out v env2 out2 _ h
    simp [eval] at h
    exact h.2.1.symm
  | Var nm =>
    intro env out v env2 out2 _ h
    simp [eval] at h
    exact h.2.1.symm
  | BinOp lhs op rhs ihl ihr =>
    intro env out v env2 out2 hna h
    simp only [noAssign, Bool.and_eq_true] at hna
    rw [eval] at h
    cases h1 : eval lhs env out with
    | error e => simp [h1] at h
    | ok t1 =>
      obtain ⟨lv, env1, out1⟩ := t1
      simp only [h1] at h
      cases h2 : eval rhs env1 out1 with
      | error e => simp [h2] at h
      | ok t2 =>
        obtain ⟨rv, env2a, out2a⟩ := t2
        simp only [h2] at h
        cases h3 : evalBin op lv rv with
        | error e => simp [h3] at h
        | ok w =>
          simp only [h3, Except.ok.injEq, Prod.mk.injEq] at h
          obtain ⟨-, h5, -⟩ := h
          subst h5
          exact (ihr _ _ _ _ _ hna.2 h2).trans (ihl _ _ _ _ _ hna.1 h1)
  | Assign nm ex ih =>
    intro env out v env2 out2 hna h
    simp [noAssign] at hna
  | Print ex ih =>
    intro env out v env2 out2 hna h
    simp only [noAssign] at hna
    rw [eval] at h
    cases h1 : eval ex env out with
    | error e => simp [h1] at h
    | ok t1 =>
      obtain ⟨w, env1, out1⟩ := t1
      simp only [h1, Except.ok.injEq, Prod.mk.injEq] at h
      obtain ⟨-, h5, -⟩ := h
      subst h5
      exact ih _ _ _ _ _ hna h1
  | If c b ihc ihb =>
    intro env out v env2 out2 hna h
    simp only [noAssign, Bool.and_eq_true] at hna
    rw [eval] at h
    cases h1 : eval c env out with
    | error e => simp [h1] at h
    | ok t1 =>
      obtain ⟨cv, env1, out1⟩ := t1
      simp only [h1] at h
      by_cases ht : truthy cv
      · rw [if_pos ht] at h
        cases h2 : eval b env1 out1 with
        | error e => simp [h2] at h
        | ok t2 =>
          obtain ⟨w, env2a, out2a⟩ := t2
          simp only [h2, Except.ok.injEq, Prod.mk.injEq] at h
          obtain ⟨-, h5, -⟩ := h
          subst h5
          exact (ihb _ _ _ _ _ hna.2 h2).trans (ihc _ _ _ _ _ hna.1 h1)
      · rw [if_neg ht] at h
        simp only [Except.ok.injEq, Prod.mk.injEq] at h
        obtain ⟨-, h5, -⟩ := h
        subst h5
        exact ihc _ _ _ _ _ hna.1 h1

/-- C9: the environment starts empty; evaluating a `Variable` only reads the
environment (it returns the bound value, or the absent value, and leaves the
state untouched); and evaluating any node whose subtree contains no
`Assignment` leaves the environment unchanged. -/
theorem c9_env_frame :
    Interpreter.initEnv = ([] : Env)
    ∧ (∀ (n : String) (env : Env) (out : List String),
        eval (Node.Var n) env out = Except.ok (envGet env n, env, out))
    ∧ (∀ (node : Node) (env : Env) (out : List String) (v : Value) (env2 : Env)
        (out2 : List String), noAssign node = true →
        eval node env out = Except.ok (v, env2, out2) → env2 = env) :=
  ⟨rfl, fun _ _ _ => rfl, eval_noAssign_env⟩

/-- Witness for C9: a `print` of an arithmetic expression over a variable
leaves a concrete environment unchanged. -/
theorem c9_env_frame_witness :
    noAssign (Node.Print (Node.BinOp (Node.Var "a") "+" (Node.Number 5))) = true
    ∧ ([("a", Value.int 1)] : Env) = [("a", Value.int 1)] :=
  ⟨by decide,
   c9_env_frame.2.2 (Node.Print (Node.BinOp (Node.Var "a") "+" (Node.Number 5)))
     [("a", Value.int 1)] [] Value.none [("a", Value.int 1)] ["6"] (by decide) (by decide)⟩

/-- An operator returned by the ordered alternation is a member of the list. -/
lemma firstPrefixMatch_mem : ∀ (l : List String) (s : List Char) (op : String),
    firstPrefixMatch l s = some op → op ∈ l := by
  intro l
  induction l with
  | nil => intro s op h; cases h
  | cons o rest ih =>
    intro s op h
    rw [firstPrefixMatch] at h
    by_cases ho : o.data.isPrefixOf s
    · rw [if_pos ho] at h
      cases h
      exact List.mem_cons_self o rest
    · rw [if_neg ho] at h
      exact List.mem_cons_of_mem o (ih s op h)

/-- On a list sorted by descending length, the first prefix match is a
longest prefix match. -/
lemma firstPrefixMatch_longest : ∀ (l : List String),
    l.Pairwise (fun a b => b.length ≤ a.length) →
    ∀ (s : List Char) (op : String), firstPrefixMatch l s = some op →
    op.data.isPrefixOf s = true ∧
    ∀ op' ∈ l, op'.data.isPrefixOf s = true → op'.length ≤ op.length := by
  intro l
  induction l with
  | nil => intro _ s op h; cases h
  | cons o rest ih =>
    intro hp s op h
    rw [firstPrefixMatch] at h
    rw [List.pairwise_cons] at hp
    by_cases ho : o.data.isPrefixOf s
    · rw [if_pos ho] at h
      cases h
      refine ⟨ho, ?_⟩
      intro op' hmem _
      rcases List.mem_cons.1 hmem with h1 | h1
      · exact h1 ▸ Nat.le_refl _
      · exact hp.1 op' h1
    · rw [if_neg ho] at h
      obtain ⟨h1, h2⟩ := ih hp.2 s op h
      refine ⟨h1, ?_⟩
      intro op' hmem hpre
      rcases List.mem_cons.1 hmem with h3 | h3
      · exact absurd (h3 ▸ hpre) (by simpa using ho)
      · exact h2 op' h3 hpre

/-- C5: the operator alternation is ordered by descending lexeme length, and
whenever the OP pattern matches, no operator lexeme that is a prefix of the
remaining input is longer than the matched one — so a shorter prefix operator
is never emitted at a position where a longer operator matches; in
particular `"x //= 2"` tokenizes `//=` as one OP token. -/
theorem c5_longest_match :
    (OPERATORS.Pairwise (fun a b => b.length ≤ a.length))
    ∧ (∀ (s : List Char) (m r : List Char), matchOp s = some (m, r) →
        ∀ op' ∈ OPERATORS, op'.data.isPrefixOf s = true → op'.data.length ≤ m.length)
    ∧ tokenise_python_code "x //= 2" =
        [("x", TKind.IDENT), ("//=", TKind.OP), ("2", TKind.INTEGER)] := by
  refine ⟨by decide, ?_, by decide⟩
  intro s m r h op' hmem hpre
  rw [matchOp] at h
  cases hf : firstPrefixMatch OPERATORS s with
  | none => rw [hf] at h; cases h
  | some op =>
    rw [hf] at h
    injection h with h1
    injection h1 with h2 h3
    obtain ⟨-, hlong⟩ := firstPrefixMatch_longest OPERATORS (by decide) s op hf
    have hle : op'.length ≤ op.length := hlong op' hmem hpre
    have hlen : op.data.length = op.length := rfl
    have hlen' : op'.data.length = op'.length := rfl
    rw [hlen', ← h2, hlen]
    exact hle

/-- Witness for C5: at the text `//= 2` the matched operator is `//=`, and
the shorter prefix operator `/` is indeed no longer than it. -/
theorem c5_longest_match_witness :
    matchOp ("//= 2".data) = some ("//=".data, " 2".data)
    ∧ ("/".data).length ≤ ("//=".data).length :=
  ⟨by decide,
   c5_longest_match.2.1 ("//= 2".data) ("//=".data) (" 2".data) (by decide)
     "/" (by decide) (by decide)⟩

/-- A successful string scan splits its input. -/
lemma scanString_append : ∀ (q : Char) (cs m r : List Char),
    scanString q cs = some (m, r) → m ++ r = cs := by
  intro q cs
  induction cs with
  | nil => intro m r h; cases h
  | cons c cs ih =>
    intro m r h
    rw [scanString] at h
    by_cases hq : c = q
    · rw [if_pos hq] at h
      injection h with h1
      injection h1 with h2 h3
      rw [← h2, ← h3]
      rfl
    · rw [if_neg hq] at h
      by_cases hn : c = '\n'
      · rw [if_pos hn] at h; cases h
      · rw [if_neg hn] at h
        cases hs : scanString q cs with
        | none => rw [hs] at h; cases h
        | some p =>
          obtain ⟨mm, rr⟩ := p
          rw [hs] at h
          injection h with h1
          injection h1 with h2 h3
          rw [← h2, ← h3]
          rw [List.cons_append, ih mm rr hs]

/-- The STRING pattern consumes at least one character. -/
lemma matchString_rest (c : Char) (cs m r : List Char)
    (h : matchString (c :: cs) = some (m, r)) : r.length ≤ cs.length := by
  rw [matchString] at h
  by_cases hq : c = '"' ∨ c = squote
  · rw [if_pos hq] at h
    cases hs : scanString c cs with
    | none => rw [hs] at h; cases h
    | some p =>
      obtain ⟨mm, rr⟩ := p
      rw [hs] at h
      injection h with h1
      injection h1 with h2 h3
      subst h3
      have := congrArg List.length (scanString_append c cs mm rr hs)
      rw [List.length_append] at this
      omega
  · rw [if_neg hq] at h; cases h

/-- A successful FLOAT-body match splits its input and is nonempty. -/
lemma floatBody_append (l m r : List Char) (h : floatBody l = some (m, r)) :
    m ++ r = l ∧ m ≠ [] := by
  rw [floatBody.eq_def] at h
  by_cases hd : l.takeWhile Char.isDigit ≠ []
  · rw [if_pos hd] at h
    cases hdrop : l.dropWhile Char.isDigit with
    | nil => rw [hdrop] at h; cases h
    | cons d r2 =>
      rw [hdrop] at h
      simp only at h
      by_cases hdot : d = '.'
      · rw [if_pos hdot] at h
        injection h with h1
        injection h1 with h2 h3
        constructor
        · rw [← h2, ← h3]
          have : l.takeWhile Char.isDigit ++ (d :: (r2.takeWhile Char.isDigit ++ r2.dropWhile Char.isDigit)) = l := by
            rw [List.takeWhile_append_dropWhile, ← hdrop, List.takeWhile_append_dropWhile]
          simpa using this
        · rw [← h2]
          intro hc
          exact hd (List.append_eq_nil.1 hc).1
      · rw [if_neg hdot] at h; cases h
  · rw [if_neg hd] at h
    cases l with
    | nil => cases h
    | cons d r2 =>
      simp only at h
      by_cases hcond : d = '.' ∧ r2.takeWhile Char.isDigit ≠ []
      · rw [if_pos hcond] at h
        injection h with h1
        injection h1 with h2 h3
        constructor
        · rw [← h2, ← h3]
          simp [List.takeWhile_append_dropWhile]
        · rw [← h2]; simp
      · rw [if_neg hcond] at h; cases h

/-- The FLOAT pattern consumes at least one character. -/
lemma matchFloat_rest (c : Char) (cs m r : List Char)
    (h : matchFloat (c :: cs) = some (m, r)) : r.length ≤ cs.length := by
  rw [matchFloat] at h
  by_cases hc : c = '+' ∨ c = '-'
  · simp only [optSign, if_pos hc] at h
    cases hb : floatBody cs with
    | none => rw [hb] at h; cases h
    | some p =>
      obtain ⟨mm, rr⟩ := p
      rw [hb] at h
      injection h with h1
      injection h1 with h2 h3
      subst h3
      obtain ⟨happ, -⟩ := floatBody_append cs mm rr hb
      have := congrArg List.length happ
      rw [List.length_append] at this
      omega
  · simp only [optSign, if_neg hc] at h
    cases hb : floatBody (c :: cs) with
    | none => rw [hb] at h; cases h
    | some p =>
      obtain ⟨mm, rr⟩ := p
      rw [hb] at h
      injection h with h1
      injection h1 with h2 h3
      subst h3
      obtain ⟨happ, hne⟩ := floatBody_append (c :: cs) mm rr hb
      have := congrArg List.length happ
      rw [List.length_append] at this
      cases mm with
      | nil => exact absurd rfl hne
      | cons x xs =>
        rw [List.length_cons] at this
        simp only [List.length_cons] at this
        omega

/-- The INTEGER pattern consumes at least one character. -/
lemma matchInteger_rest (c : Char) (cs m r : List Char)
    (h : matchInteger (c :: cs) = some (m, r)) : r.length ≤ cs.length := by
  rw [matchInteger] at h
  by_cases hc : c = '+' ∨ c = '-'
  · simp only [optSign, if_pos hc] at h
    split at h
    · injection h with h1
      injection h1 with h2 h3
      subst h3
      have := congrArg List.length (List.takeWhile_append_dropWhile (p := Char.isDigit) (l := cs))
      rw [List.length_append] at this
      omega
    · cases h
  · simp only [optSign, if_neg hc] at h
    split at h
    · rename_i hd
      injection h with h1
      injection h1 with h2 h3
      subst h3
      have := congrArg List.length (List.takeWhile_append_dropWhile (p := Char.isDigit) (l := c :: cs))
      rw [List.length_append] at this
      cases htk : (c :: cs).takeWhile Char.isDigit with
      | nil => exact absurd htk hd
      | cons x xs =>
        rw [htk, List.length_cons, List.length_cons] at this
        omega
    · cases h

/-- The IDENT pattern consumes at least one character. -/
lemma matchIdent_rest (c : Char) (cs m r : List Char)
    (h : matchIdent (c :: cs) = some (m, r)) : r.length ≤ cs.length := by
  rw [matchIdent] at h
  split at h
  · injection h with h1
    injection h1 with h2 h3
    subst h3
    have := congrArg List.length (List.takeWhile_append_dropWhile (p := isIdentChar) (l := cs))
    rw [List.length_append] at this
    omega
  · cases h

/-- The OP pattern consumes at least one character. -/
lemma matchOp_rest (c : Char) (cs m r : List Char)
    (h : matchOp (c :: cs) = some (m, r)) : r.length ≤ cs.length := by
  rw [matchOp] at h
  cases hf : firstPrefixMatch OPERATORS (c :: cs) with
  | none => rw [hf] at h; cases h
  | some op =>
    rw [hf] at h
    injection h with h1
    injection h1 with h2 h3
    subst h3
    have hmem : op ∈ OPERATORS := firstPrefixMatch_mem OPERATORS (c :: cs) op hf
    have hlen : 1 ≤ op.data.length := by
      have hall : ∀ o ∈ OPERATORS, 1 ≤ o.data.length := by decide
      exact hall op hmem
    rw [List.length_drop, List.length_cons]
    omega

/-- The SKIP pattern consumes at least one character. -/
lemma matchSkip_rest (c : Char) (cs m r : List Char)
    (h : matchSkip (c :: cs) = some (m, r)) : r.length ≤ cs.length := by
  rw [matchSkip] at h
  split at h
  · rename_i hd
    injection h with h1
    injection h1 with h2 h3
    subst h3
    have := congrArg List.length (List.takeWhile_append_dropWhile (p := isPySpace) (l := c :: cs))
    rw [List.length_append] at this
    cases htk : (c :: cs).takeWhile isPySpace with
    | nil => exact absurd htk hd
    | cons x xs =>
      rw [htk, List.length_cons, List.length_cons] at this
      omega
  · cases h

/-- Every scanner step consumes at least one character, so the scan over a
line always terminates having consumed the whole line. -/
lemma nextTok_rest_le (c : Char) (cs : List Char) :
    ((nextTok c cs).2).length ≤ cs.length := by
  rw [nextTok]
  cases h1 : matchString (c :: cs) with
  | some p => obtain ⟨m, r⟩ := p; exact matchString_rest c cs m r h1
  | none =>
  cases h2 : matchFloat (c :: cs) with
  | some p => obtain ⟨m, r⟩ := p; exact matchFloat_rest c cs m r h2
  | none =>
  cases h3 : matchInteger (c :: cs) with
  | some p => obtain ⟨m, r⟩ := p; exact matchInteger_rest c cs m r h3
  | none =>
  cases h4 : matchIdent (c :: cs) with
  | some p => obtain ⟨m, r⟩ := p; exact matchIdent_rest c cs m r h4
  | none =>
  cases h5 : matchOp (c :: cs) with
  | some p => obtain ⟨m, r⟩ := p; exact matchOp_rest c cs m r h5
  | none =>
  cases h6 : matchSkip (c :: cs) with
  | some p => obtain ⟨m, r⟩ := p; exact matchSkip_rest c cs m r h6
  | none => exact Nat.le_refl _

/-- No SKIP-kind token ever survives the token loop. -/
lemma tokeniseAux_no_skip : ∀ (fuel : Nat) (s : List Char) (t : Tok),
    t ∈ tokeniseAux fuel s → t.2 ≠ TKind.SKIP := by
  intro fuel
  induction fuel with
  | zero => intro s t ht; rw [tokeniseAux] at ht; cases ht
  | succ n ih =>
    intro s t ht
    cases s with
    | nil => simp [tokeniseAux] at ht
    | cons c cs =>
      rw [tokeniseAux] at ht
      by_cases hk : (nextTok c cs).1.2 = TKind.SKIP
      · rw [if_pos hk] at ht
        exact ih _ t ht
      · rw [if_neg hk] at ht
        rcases List.mem_cons.1 ht with h1 | h1
        · subst h1
          by_cases hid : (nextTok c cs).1.2 = TKind.IDENT
          · rw [if_pos hid]
            by_cases hkw : (nextTok c cs).1.1 ∈ KEYWORDS
            · rw [if_pos hkw]; intro hc; cases hc
            · rw [if_neg hkw]
              by_cases hop : (nextTok c cs).1.1 ∈ OPERATORS
              · rw [if_pos hop]; intro hc; cases hc
              · rw [if_neg hop]; intro hc; cases hc
          · rw [if_neg hid]
            exact hk
        · exact ih _ t h1

/-- C6: the tokenizer is total — it is a function defined on every line, no
whitespace (SKIP) token ever appears in its output, a character at which no
pattern matches becomes a single-character MISMATCH (the spec's UNKNOWN)
token, and every scanner step consumes at least one character so the scan
consumes the whole line; concretely, `"a @ 1"` tokenizes with `@` as a
single-character MISMATCH token and the whitespace discarded. -/
theorem c6_tokenizer_total :
    (∀ (line : String) (t : Tok), t ∈ tokenise_python_code line → t.2 ≠ TKind.SKIP)
    ∧ (∀ (c : Char) (cs : List Char),
        matchString (c :: cs) = none → matchFloat (c :: cs) = none →
        matchInteger (c :: cs) = none → matchIdent (c :: cs) = none →
        matchOp (c :: cs) = none → matchSkip (c :: cs) = none →
        nextTok c cs = ((String.mk [c], TKind.MISMATCH), cs))
    ∧ (∀ (c : Char) (cs : List Char), ((nextTok c cs).2).length ≤ cs.length)
    ∧ tokenise_python_code "a @ 1" =
        [("a", TKind.IDENT), ("@", TKind.MISMATCH), ("1", TKind.INTEGER)] := by
  refine ⟨?_, ?_, nextTok_rest_le, by decide⟩
  · intro line t ht
    exact tokeniseAux_no_skip _ _ t ht
  · intro c cs h1 h2 h3 h4 h5 h6
    rw [nextTok, h1, h2, h3, h4, h5, h6]

/-- Witness for C6 at the line `a @ 1` and the character `@`. -/
theorem c6_tokenizer_total_witness :
    (("@", TKind.MISMATCH) : Tok).2 ≠ TKind.SKIP
    ∧ nextTok '@' [] = ((String.mk ['@'], TKind.MISMATCH), []) :=
  ⟨c6_tokenizer_total.1 "a @ 1" ("@", TKind.MISMATCH) (by decide),
   c6_tokenizer_total.2.1 '@' [] (by decide) (by decide) (by decide) (by decide)
     (by decide) (by decide)⟩

/-- Two space-free names followed by a space separator can only be prefixes
of one another when they are equal. -/
lemma space_sep_eq : ∀ (u v a b : List Char), ' ' ∉ u → ' ' ∉ v →
    (u ++ ' ' :: a) <+: (v ++ ' ' :: b) → u = v := by
  intro u
  induction u with
  | nil =>
    intro v a b _ hv h
    cases v with
    | nil => rfl
    | cons y ys =>
      rw [List.nil_append] at h
      obtain ⟨hy, -⟩ := List.cons_prefix_cons.1 h
      exact absurd hy.symm (fun hc => hv (hc ▸ List.mem_cons_self y ys))
  | cons x xs ih =>
    intro v a b hu hv h
    cases v with
    | nil =>
      rw [List.nil_append] at h
      obtain ⟨hy, -⟩ := List.cons_prefix_cons.1 h
      exact absurd hy (fun hc => hu (hc ▸ List.mem_cons_self x xs))
    | cons y ys =>
      obtain ⟨hy, htl⟩ := List.cons_prefix_cons.1 h
      have : xs = ys :=
        ih ys a b (fun hc => hu (List.mem_cons_of_mem x hc))
          (fun hc => hv (List.mem_cons_of_mem y hc)) htl
      rw [hy, this]

/-- The declaration line emitted for a name is a declaration line of that
name. -/
lemma isDeclLine_assign_self (n e : String) :
    isDeclLine n ("    int " ++ n ++ " = " ++ e ++ ";") = true := by
  rw [isDeclLine, List.isPrefixOf_iff_prefix]
  have hd : ("    int " ++ n ++ " = " ++ e ++ ";").data =
      (declPrefix n) ++ (e.data ++ [';']) := by
    simp [String.data_append, declPrefix]
  rw [hd]
  exact List.prefix_append _ _

/-- A declaration line for a space-free name matches the prefix of another
space-free name only when the names are equal. -/
lemma isDeclLine_assign_eq (n m e : String) (hn : ' ' ∉ n.data) (hm : ' ' ∉ m.data)
    (h : isDeclLine n ("    int " ++ m ++ " = " ++ e ++ ";") = true) : m = n := by
  rw [isDeclLine, List.isPrefixOf_iff_prefix] at h
  have hd : ("    int " ++ m ++ " = " ++ e ++ ";").data =
      (' ' :: ' ' :: ' ' :: ' ' :: 'i' :: 'n' :: 't' :: ' ' :: (m.data ++ ' ' :: ('=' :: ' ' :: (e.data ++ [';'])))) := by
    simp [String.data_append]
  rw [hd, declPrefix] at h
  simp only [List.cons_prefix_cons, true_and] at h
  have hpre : n.data ++ ' ' :: ('=' :: ' ' :: []) <+: m.data ++ ' ' :: ('=' :: ' ' :: (e.data ++ [';'])) := by
    simpa using h
  exact (String.ext (space_sep_eq n.data m.data _ _ hn hm hpre)).symm

/-- A printf line is never a declaration line. -/
lemma isDeclLine_print (n e : String) :
    isDeclLine n ("    printf(\"%d\\n\", " ++ e ++ ");") = false := rfl

/-- An if-header line is never a declaration line. -/
lemma isDeclLine_if (n c : String) :
    isDeclLine n ("    if (" ++ c ++ ") \x7b") = false := rfl

/-- A closing-brace line is never a declaration line. -/
lemma isDeclLine_close (n : String) : isDeclLine n "    \x7d" = false := rfl

/-- The include line is never a declaration line. -/
lemma isDeclLine_include (n : String) : isDeclLine n "#include <stdio.h>" = false := rfl

/-- The blank line is never a declaration line. -/
lemma isDeclLine_empty (n : String) : isDeclLine n "" = false := rfl

/-- The main-header line is never a declaration line. -/
lemma isDeclLine_main (n : String) : isDeclLine n "int main() \x7b" = false := rfl

/-- The return line is never a declaration line. -/
lemma isDeclLine_return (n : String) : isDeclLine n "    return 0;" = false := rfl

/-- The final brace line is never a declaration line. -/
lemma isDeclLine_end (n : String) : isDeclLine n "\x7d" = false := rfl

/-- Declaration counting is additive over concatenation. -/
lemma declCount_append (n : String) (a b : List String) :
    declCount n (a ++ b) = declCount n a + declCount n b := by
  simp [declCount, List.filter_append]

/-- Per statement, the emitted lines contain exactly as many declarations of
`n` as the statement contains assignments to `n`. -/
lemma emit_declCount (n : String) (hn : ' ' ∉ n.data) : ∀ (s : Node),
    (∀ m ∈ assignedNames s, ' ' ∉ m.data) →
    declCount n (CGen.emit s) = assignCount n s := by
  intro s
  induction s with
  | Number v => intro _; rfl
  | String v => intro _; rfl
  | Var v => intro _; rfl
  | BinOp l op r _ _ => intro _; rfl
  | Print ex _ => intro _; rfl
  | Assign m ex _ =>
    intro hm
    have hm' : ' ' ∉ m.data := hm m (by simp [assignedNames])
    show declCount n ["    int " ++ m ++ " = " ++ CGen.e ex ++ ";"] = if m = n then 1 else 0
    by_cases hmn : m = n
    · subst hmn
      simp [declCount, List.filter, isDeclLine_assign_self]
    · have hfalse : isDeclLine n ("    int " ++ m ++ " = " ++ CGen.e ex ++ ";") = false := by
        by_contra hc
        exact hmn (isDeclLine_assign_eq n m (CGen.e ex) hn hm'
          (eq_true_of_ne_false hc))
      simp [declCount, List.filter, hfalse, hmn]
  | If c b _ ihb =>
    intro hm
    show declCount n (("    if (" ++ CGen.e c ++ ") \x7b") :: CGen.emit b ++ ["    \x7d"]) = assignCount n b
    have h1 : declCount n (("    if (" ++ CGen.e c ++ ") \x7b") :: CGen.emit b ++ ["    \x7d"]) =
        declCount n (CGen.emit b) := by
      simp [declCount, List.filter, isDeclLine_if, List.filter_append, isDeclLine_close]
    rw [h1]
    exact ihb (fun m hmem => hm m (by simpa [assignedNames] using hmem))

/-- C7: for every statement list (over space-free variable names, as produced
by the lexer's IDENT pattern), the generated C text contains exactly one
fresh `int`-declaration-with-initializer line per `Assign` statement to a
name — so a list that assigns the same name twice yields two declarations of
that name in the same scope. -/
theorem c7_duplicate_declarations (n : String) (stmts : List Node) (hn : ' ' ∉ n.data)
    (hs : ∀ s ∈ stmts, ∀ m ∈ assignedNames s, ' ' ∉ m.data) :
    declCount n (CGen.genLines stmts) = assignCountList n stmts := by
  have hmid : ∀ (l : List Node), (∀ s ∈ l, ∀ m ∈ assignedNames s, ' ' ∉ m.data) →
      declCount n ((l.map CGen.emit).flatten) = assignCountList n l := by
    intro l
    induction l with
    | nil => intro _; rfl
    | cons s rest ih =>
      intro hl
      rw [List.map_cons, List.flatten_cons, declCount_append,
        emit_declCount n hn s (hl s (List.mem_cons_self s rest))]
      have hsum : assignCountList n (s :: rest) = assignCount n s + assignCountList n rest := by
        simp [assignCountList]
      rw [hsum, ih (fun t ht m hm => hl t (List.mem_cons_of_mem s ht) m hm)]
  have hgen : CGen.genLines stmts =
      ["#include <stdio.h>", "", "int main() \x7b"] ++ (stmts.map CGen.emit).flatten
        ++ ["    return 0;", "\x7d"] := rfl
  rw [hgen, declCount_append, declCount_append]
  have h1 : declCount n ["#include <stdio.h>", "", "int main() \x7b"] = 0 := by
    simp [declCount, List.filter, isDeclLine_include, isDeclLine_empty, isDeclLine_main]
  have h2 : declCount n ["    return 0;", "\x7d"] = 0 := by
    simp [declCount, List.filter, isDeclLine_return, isDeclLine_end]
  rw [h1, h2, hmid stmts hs]
  omega

/-- Witness for C7: assigning `x` twice yields two declaration lines. -/
theorem c7_duplicate_declarations_witness :
    declCount "x" (CGen.genLines [Node.Assign "x" (Node.Number 1), Node.Assign "x" (Node.Number 2)]) = 2
    ∧ assignCountList "x" [Node.Assign "x" (Node.Number 1), Node.Assign "x" (Node.Number 2)] = 2 :=
  ⟨(c7_duplicate_declarations "x" [Node.Assign "x" (Node.Number 1), Node.Assign "x" (Node.Number 2)]
      (by decide) (by decide)).trans (by decide),
   by decide⟩

end Py2C
